import Mathlib

/-!
Shallow embedding of the urpm-ng daemon subsystem
(src/urpm/daemon/scheduler.py and src/urpm/daemon/daemon.py),
with theorems checking the natural-language specification against it.

Python floats are modelled as rationals, Python ints as Int/Nat,
fallible reads as Option, and thread-local mutable fields as explicit
state passed in and returned.
-/

namespace Urpm

/-! ### Scheduler: jitter and quantization (scheduler.py, `_schedule_next`)

Python's builtin `round` rounds half to even (banker's rounding); we
model it on rationals. -/

/-- Round to the nearest integer, ties to the even integer
(the semantics of Python's builtin `round`). -/
def roundHalfEven (q : ℚ) : ℤ :=
  if q - ⌊q⌋ < 1/2 then ⌊q⌋
  else if 1/2 < q - ⌊q⌋ then ⌊q⌋ + 1
  else if ⌊q⌋ % 2 = 0 then ⌊q⌋ else ⌊q⌋ + 1

/-- Embedding of `_schedule_next` (scheduler.py lines 199-224): jitter the base interval
by `1 + ε`, quantize to ticks (`max(1, round(actual / T))`), multiply back.
`B` is `base_interval`, `T` is `tick_interval`, `ε` the draw of
`random.uniform(-jitter_factor, jitter_factor)`. -/
def scheduleDelay (B T : ℕ) (ε : ℚ) : ℚ :=
  ((max 1 (roundHalfEven ((B : ℚ) * (1 + ε) / (T : ℚ))) : ℤ) : ℚ) * (T : ℚ)

/-- The value `_schedule_next` stores into `_next_<task>_check`:
`now + actual_interval`. -/
def scheduleNext (now : ℚ) (B T : ℕ) (ε : ℚ) : ℚ := now + scheduleDelay B T ε

/-- The `max_ticks` of `_should_run_task` (scheduler.py line 190):
`max(1, int(base_interval * 0.5 / tick_interval))`; Python `int` truncates,
and the argument is nonnegative, so it is the floor. -/
def maxInitialTicks (B T : ℕ) : ℕ :=
  max 1 (⌊(B : ℚ) * (1/2) / (T : ℚ)⌋.toNat)

/-- Embedding of `_should_run_task` (scheduler.py lines 163-197). State is the stored
`_next_<task>_check` attribute (`none` before the first call). `k` is the
draw of `random.randint(1, max_ticks)`. Returns (should-run, new stored
next time). On the first call it stores `now + k * T` and returns false;
afterwards it returns `now >= next_time` and leaves the state unchanged. -/
def shouldRunTask (nextTime : Option ℚ) (now : ℚ) (T : ℕ) (k : ℕ) : Bool × Option ℚ :=
  match nextTime with
  | none => (false, some (now + ((k * T : ℕ) : ℚ)))
  | some t => (decide (t ≤ now), some t)

/-- One pass of `_check_tasks` for the metadata task together with the
enclosing try/except of `_run` (scheduler.py lines 128-158). If the task is
due and its body (`_run_metadata_check`) raises, the exception propagates
past `_schedule_next`, is caught in `_run` and logged at error level, so the
stored next-fire time is left as it was. If the body returns normally,
`_schedule_next` runs. -/
structure TickOutcome where
  nextTime : Option ℚ
  errorLogged : Bool
deriving DecidableEq

def checkTasksMetadata (nextTime : Option ℚ) (now : ℚ) (B T : ℕ) (k : ℕ) (ε : ℚ)
    (bodyRaises : Bool) : TickOutcome :=
  let s := shouldRunTask nextTime now T k
  if s.1 then
    if bodyRaises then { nextTime := s.2, errorLogged := true }
    else { nextTime := some (scheduleNext now B T ε), errorLogged := false }
  else { nextTime := s.2, errorLogged := false }

/-! ### Freshness prober (scheduler.py, `_check_synthesis_changed`)

Headers are modelled as `Option (Option _)`: `none` = header absent (or, for
Content-Length, present but empty, which the truthiness test skips);
`some none` = present but unparseable; `some (some v)` = parsed value `v`.
An unparseable Content-Length makes Python's `int()` raise `ValueError`,
which none of the function's `except` clauses catch, so the function does
not return a decision at all: outcome `exn`. -/

inductive ProbeOutcome
  | changed
  | unchanged
  | exn
deriving DecidableEq

/-- Date comparison part of `_check_synthesis_changed` (lines 324-336):
an absent or unparseable Last-Modified is skipped (`pass`), falling through
to `return False`. -/
def probeDate (lastModified : Option (Option ℚ)) (localMtime : ℚ) : ProbeOutcome :=
  match lastModified with
  | none => ProbeOutcome.unchanged
  | some none => ProbeOutcome.unchanged
  | some (some remoteMtime) =>
      if localMtime < remoteMtime then ProbeOutcome.changed else ProbeOutcome.unchanged

/-- Body of the HEAD-succeeded branch of `_check_synthesis_changed`
(lines 312-336). -/
def headCheck (localSize : ℤ) (localMtime : ℚ) (contentLength : Option (Option ℤ))
    (lastModified : Option (Option ℚ)) : ProbeOutcome :=
  match contentLength with
  | some none => ProbeOutcome.exn
  | some (some remoteSize) =>
      if remoteSize ≠ localSize then ProbeOutcome.changed
      else probeDate lastModified localMtime
  | none => probeDate lastModified localMtime

/-- Result of the HTTP HEAD: `failed` covers `HTTPError`, `URLError` and
`OSError`; `ok` carries the two headers. -/
inductive HeadResult
  | failed
  | ok (contentLength : Option (Option ℤ)) (lastModified : Option (Option ℚ))
deriving DecidableEq

/-- Embedding of `_check_synthesis_changed` (scheduler.py lines 276-344). `localFile` is
`none` when the local synthesis file does not exist or cannot be statted,
otherwise `some (st_size, st_mtime)`. -/
def checkSynthesisChanged (localFile : Option (ℤ × ℚ)) (head : HeadResult) : ProbeOutcome :=
  match localFile with
  | none => ProbeOutcome.changed
  | some (localSize, localMtime) =>
    match head with
    | HeadResult.failed => ProbeOutcome.changed
    | HeadResult.ok cl lm => headCheck localSize localMtime cl lm

/-- Per media, `_run_metadata_check` (lines 263-274) calls `_refresh_media` (the Sync
collaborator) iff `_check_synthesis_changed` returned True. -/
def refreshInvoked : ProbeOutcome → Bool
  | ProbeOutcome.changed => true
  | _ => false

/-! ### Pre-download engine (scheduler.py, `_run_predownload`) -/

/-- One resolver action as consumed by `_get_available_updates`
(lines 505-513); `size` may be `None`. -/
structure UpgradeAction where
  name : String
  from_evr : String
  evr : String
  arch : String
  size : Option ℕ
deriving DecidableEq

/-- One entry of the `updates` list built by `_get_available_updates`;
only the fields `_predownload_packages` reads are kept. -/
structure UpdateEntry where
  name : String
  size : Option ℕ
deriving DecidableEq

/-- The dict `_get_available_updates` returns (lines 515-519). -/
structure UpdatesResult where
  count : ℕ
  updates : List UpdateEntry
  total_size : ℕ
deriving DecidableEq

/-- Embedding of `_get_available_updates` (lines 503-519): `total_size` sums
`action.size or 0`. -/
def getAvailableUpdates (actions : List UpgradeAction) : UpdatesResult :=
  { count := actions.length
  , updates := actions.map (fun a => { name := a.name, size := a.size })
  , total_size := (actions.map (fun a => a.size.getD 0)).sum }

/-- The fields of a `get_package` row that `_predownload_packages` reads;
`none` models an absent or empty (falsy) value. -/
structure PkgInfo where
  url : Option String
  filename : Option String
deriving DecidableEq

/-- A `DownloadItem` handed to the Downloader collaborator. -/
structure DownloadItem where
  url : String
  filename : String
  size : Option ℕ
deriving DecidableEq

/-- The item list `_predownload_packages` builds (lines 396-410): packages
missing from the database or lacking a truthy url/filename are skipped. -/
def predownloadItems (db : String → Option PkgInfo) (updates : List UpdateEntry) :
    List DownloadItem :=
  updates.filterMap (fun u =>
    match db u.name with
    | none => none
    | some info =>
      match info.url, info.filename with
      | some url, some fn => some { url := url, filename := fn, size := u.size }
      | some _, none => none
      | none, _ => none)

/-- Observable effects of one `_run_predownload` run: the download items
given to the Downloader, and whether `_run_cache_cleanup` ran. -/
structure PredownloadEffects where
  itemsIssued : List DownloadItem
  cleanupRan : Bool
deriving DecidableEq

/-- Embedding of `_run_predownload` (scheduler.py lines 346-381). `db` is `none` when the
scheduler has no database connection; `updatesResult` is `none` when
`_get_available_updates` returned None (its error path). The Python
`if not updates` only catches None, since a non-empty dict is truthy.
If `total_size > max_predownload_size` the run returns before both the
download and the cleanup; likewise when the system is not idle. -/
def runPredownload (db : Option (String → Option PkgInfo))
    (updatesResult : Option UpdatesResult) (sMax : ℕ) (idle : Bool) :
    PredownloadEffects :=
  match db, updatesResult with
  | none, _ => { itemsIssued := [], cleanupRan := false }
  | some _, none => { itemsIssued := [], cleanupRan := false }
  | some dbf, some res =>
    if sMax < res.total_size then { itemsIssued := [], cleanupRan := false }
    else if idle then { itemsIssued := predownloadItems dbf res.updates, cleanupRan := true }
    else { itemsIssued := [], cleanupRan := false }

/-- Default of `self.max_predownload_size` (scheduler.py line 94). -/
def maxPredownloadSize : ℕ := 500 * 1024 * 1024

/-! ### Network idle probe (scheduler.py, `_is_network_idle`) -/

/-- The stored baseline: `_last_net_sample` (rx, tx) together with
`_last_net_sample_time`; the two attributes are always written together. -/
structure NetSample where
  rx : ℤ
  tx : ℤ
  time : ℚ
deriving DecidableEq

/-- Embedding of `_is_network_idle` (scheduler.py lines 563-596). `read` is the result of
`_get_network_bytes`: `none` models a raised exception there, which the
enclosing `except` turns into "idle" without touching the baseline.
On the first successful call the baseline is stored and the probe is idle.
When less than one second elapsed, the probe returns idle and — note —
leaves the stored baseline unchanged (the update on lines 589-590 is only
reached on the `elapsed >= 1` path). -/
def isNetworkIdle (prev : Option NetSample) (read : Option (ℤ × ℤ)) (now : ℚ)
    (maxKbps : ℚ) : Bool × Option NetSample :=
  match read with
  | none => (true, prev)
  | some (rx, tx) =>
    match prev with
    | none => (true, some { rx := rx, tx := tx, time := now })
    | some p =>
      if now - p.time < 1 then (true, some p)
      else
        let rxRate := ((rx - p.rx : ℤ) : ℚ) / (now - p.time) / 1024
        let txRate := ((tx - p.tx : ℤ) : ℚ) / (now - p.time) / 1024
        (decide (rxRate + txRate < maxKbps), some { rx := rx, tx := tx, time := now })

/-! ### Cache query surface (daemon.py, `check_have_packages`)

The `<base>/medias` tree is modelled structurally: a list of host-level
directory entries, each holding media-level entries, each holding files.
`isDir` mirrors the `is_dir()` filter at both levels; a file entry with
`statSize = none` models a file whose `stat()` raises `OSError`
(the `except OSError: continue` moves on to the next media directory). -/

structure FileEntry where
  name : String
  statSize : Option ℕ
deriving DecidableEq

structure MediaDir where
  name : String
  isDir : Bool
  files : List FileEntry
deriving DecidableEq

structure HostDir where
  name : String
  isDir : Bool
  media : List MediaDir
deriving DecidableEq

/-- One element of the `available` list of `check_have_packages`. -/
structure HaveEntry where
  filename : String
  size : ℕ
  path : String
deriving DecidableEq

/-- Result of `file_path.exists() and file_path.is_file()` plus the `stat()` call:
`none` = no such file; `some none` = stat raised OSError;
`some (some sz)` = stat succeeded with size `sz`. -/
def lookupFile (files : List FileEntry) (filename : String) : Option (Option ℕ) :=
  (files.find? (fun f => f.name == filename)).map (fun f => f.statSize)

/-- Inner loop of `check_have_packages` (daemon.py lines 365-384) over the
media directories of one hostname directory. -/
def searchHost (hostName : String) (dirs : List MediaDir) (filename : String) :
    Option HaveEntry :=
  match dirs with
  | [] => none
  | m :: rest =>
    if m.isDir then
      match lookupFile m.files filename with
      | some (some sz) =>
          some { filename := filename, size := sz
               , path := hostName ++ "/" ++ m.name ++ "/" ++ filename }
      | some none => searchHost hostName rest filename
      | none => searchHost hostName rest filename
    else searchHost hostName rest filename

/-- Outer loop of `check_have_packages` (lines 362-384) over hostname
directories; stops at the first hit. -/
def searchMedias (hosts : List HostDir) (filename : String) : Option HaveEntry :=
  match hosts with
  | [] => none
  | h :: rest =>
    if h.isDir then
      match searchHost h.name h.media filename with
      | some e => some e
      | none => searchMedias rest filename
    else searchMedias rest filename

/-- Python's `str.endswith`, expressed on the character list so that it is
structurally computable. -/
def strEndsWith (s post : String) : Bool := post.data.isSuffixOf s.data

/-- Per-filename loop of `check_have_packages` (lines 355-387), building the
`available` and `missing` lists in input order. An empty or non-`.rpm`
filename goes to `missing` as `filename or '<invalid>'`. -/
def processPackages (hosts : List HostDir) : List String → List HaveEntry × List String
  | [] => ([], [])
  | filename :: rest =>
    let r := processPackages hosts rest
    if filename == "" || !(strEndsWith filename ".rpm") then
      (r.1, (if filename == "" then "<invalid>" else filename) :: r.2)
    else
      match searchMedias hosts filename with
      | some e => (e :: r.1, r.2)
      | none => (r.1, filename :: r.2)

/-- The dict `check_have_packages` returns. -/
structure HaveResult where
  available : List HaveEntry
  missing : List String
  available_count : ℕ
  missing_count : ℕ
deriving DecidableEq

/-- Embedding of `check_have_packages` (daemon.py lines 329-394). `mediasDir` is `none`
when `<base>/medias` does not exist, in which case all inputs are returned
verbatim as missing. -/
def check_have_packages (mediasDir : Option (List HostDir)) (packages : List String) :
    HaveResult :=
  match mediasDir with
  | none =>
    { available := [], missing := packages
    , available_count := 0, missing_count := packages.length }
  | some hosts =>
    let r := processPackages hosts packages
    { available := r.1, missing := r.2
    , available_count := r.1.length, missing_count := r.2.length }

/-! ### Theorems: scheduler timing -/

/-- Rounding half to even is never more than half away from its argument. -/
theorem abs_roundHalfEven_sub (q : ℚ) : |(roundHalfEven q : ℚ) - q| ≤ 1/2 := by
  have h1 : (⌊q⌋ : ℚ) ≤ q := Int.floor_le q
  have h2 : q < ⌊q⌋ + 1 := Int.lt_floor_add_one q
  rw [roundHalfEven]
  split_ifs <;> rw [abs_le] <;> push_cast <;> constructor <;> linarith

/-- C2: for every rescheduling decision with base interval `B`, tick `T` and
jitter draw `ε ∈ [-0.30, 0.30]`, the scheduled delay is
`max(1, round(B (1+ε) / T)) × T`, and every scheduled delay `d` satisfies
`|d − B| ≤ 0.30 B + T`. -/
theorem scheduleDelay_eq_and_bound (B T : ℕ) (ε : ℚ) (hB : 0 < B) (hT : 0 < T)
    (h1 : -(3/10) ≤ ε) (h2 : ε ≤ 3/10) :
    scheduleDelay B T ε
      = ((max 1 (roundHalfEven ((B : ℚ) * (1 + ε) / (T : ℚ))) : ℤ) : ℚ) * (T : ℚ) ∧
    |scheduleDelay B T ε - (B : ℚ)| ≤ 3/10 * (B : ℚ) + (T : ℚ) := by
  refine ⟨rfl, ?_⟩
  have hB' : (0:ℚ) < (B : ℚ) := by exact_mod_cast hB
  have hT' : (0:ℚ) < (T : ℚ) := by exact_mod_cast hT
  set x : ℚ := (B : ℚ) * (1 + ε) / (T : ℚ) with hx
  set n : ℤ := roundHalfEven x with hn
  have hround : |(n : ℚ) - x| ≤ 1/2 := abs_roundHalfEven_sub x
  have hxT : x * (T : ℚ) = (B : ℚ) * (1 + ε) := by
    rw [hx]; exact div_mul_cancel₀ _ hT'.ne'
  have hεabs : |ε| ≤ 3/10 := abs_le.mpr ⟨by linarith, h2⟩
  have hjit : |(B : ℚ) * (1 + ε) - (B : ℚ)| ≤ 3/10 * (B : ℚ) := by
    have he : (B : ℚ) * (1 + ε) - (B : ℚ) = (B : ℚ) * ε := by ring
    rw [he, abs_mul, abs_of_pos hB']
    nlinarith [abs_nonneg ε]
  have hdelay : scheduleDelay B T ε = ((max 1 n : ℤ) : ℚ) * (T : ℚ) := rfl
  rcases le_or_lt 1 n with hge | hlt
  · rw [hdelay, max_eq_right hge]
    have ha : |(n : ℚ) * (T : ℚ) - x * (T : ℚ)| ≤ (1/2) * (T : ℚ) := by
      have he : (n : ℚ) * (T : ℚ) - x * (T : ℚ) = ((n : ℚ) - x) * (T : ℚ) := by ring
      rw [he, abs_mul, abs_of_pos hT']
      nlinarith [abs_nonneg ((n : ℚ) - x)]
    have htri := abs_sub_le ((n : ℚ) * (T : ℚ)) (x * (T : ℚ)) ((B : ℚ))
    rw [hxT] at htri ha
    linarith
  · have hn0 : n ≤ 0 := by omega
    have hn0' : (n : ℚ) ≤ 0 := by exact_mod_cast hn0
    rw [hdelay, max_eq_left (by omega : n ≤ 1)]
    have hxhalf : x ≤ 1/2 := by
      have := abs_le.mp hround
      linarith [this.1]
    have hup : (B : ℚ) * (1 + ε) ≤ (1/2) * (T : ℚ) := by
      rw [← hxT]
      nlinarith
    have hlow : (7/10) * (B : ℚ) ≤ (B : ℚ) * (1 + ε) := by nlinarith
    have hBT : (B : ℚ) ≤ (T : ℚ) := by nlinarith
    rw [abs_le]
    push_cast
    constructor <;> nlinarith

/-- Concrete evaluation used by the C2 witness: `round(138/10) = 14`. -/
theorem roundHalfEven_69_5 : roundHalfEven (69/5) = 14 := by
  have hfl : ⌊(69/5 : ℚ)⌋ = 13 := by norm_num
  rw [roundHalfEven, hfl]
  norm_num

/-- C2 witness: the spec's literal example `T = 10`, `B = 120`, `ε = +0.15`
gives delay 140 s, within the bound. -/
theorem scheduleDelay_witness :
    scheduleDelay 120 10 (3/20) = 140 ∧
    |scheduleDelay 120 10 (3/20) - ((120 : ℕ) : ℚ)| ≤ 3/10 * ((120 : ℕ) : ℚ) + ((10 : ℕ) : ℚ) := by
  have h := scheduleDelay_eq_and_bound 120 10 (3/20) (by norm_num) (by norm_num)
    (by norm_num) (by norm_num)
  refine ⟨?_, h.2⟩
  have hx : ((120 : ℕ) : ℚ) * (1 + 3/20) / ((10 : ℕ) : ℚ) = 69/5 := by norm_num
  rw [scheduleDelay, hx, roundHalfEven_69_5]
  norm_num

/-- C3 counterexample: at `now = 5` (tick `T = 10`, a legal first draw
`k = 1`), the scheduler stores `next_fire_time = 15`, which is not an
integer multiple of the tick: stored times are `now + k·T`, so they are
multiples of `T` only when `now` is. -/
theorem nextFire_not_multiple :
    (shouldRunTask none 5 10 1).2 = some 15 ∧ ¬ ∃ m : ℤ, (15 : ℚ) = (m : ℚ) * 10 := by
  constructor
  · show some ((5 : ℚ) + ((1 * 10 : ℕ) : ℚ)) = some 15
    norm_num
  · rintro ⟨m, hm⟩
    have h3 : ((2 * m : ℤ) : ℚ) = ((3 : ℤ) : ℚ) := by push_cast; linarith
    have h4 : (2 * m : ℤ) = 3 := by exact_mod_cast h3
    omega

/-- C3 amended: every stored `next_fire_time` equals `now` plus an integer
multiple of the tick `T` — the scheduled delay is quantized, both on the
first-fire path and on every reschedule; the absolute time itself is a
multiple of `T` only when `now` is. -/
theorem nextFire_delay_multiple (now : ℚ) (B T k : ℕ) (ε : ℚ) :
    (∃ m : ℤ, ((shouldRunTask none now T k).2.getD 0) - now = (m : ℚ) * (T : ℚ)) ∧
    (∃ m : ℤ, scheduleNext now B T ε - now = (m : ℚ) * (T : ℚ)) := by
  constructor
  · refine ⟨(k : ℤ), ?_⟩
    show (now + ((k * T : ℕ) : ℚ)) - now = ((k : ℤ) : ℚ) * (T : ℚ)
    push_cast
    ring
  · refine ⟨max 1 (roundHalfEven ((B : ℚ) * (1 + ε) / (T : ℚ))), ?_⟩
    rw [scheduleNext, scheduleDelay]
    ring

/-- Concrete evaluation of `max_ticks` for the spec's example `B = 60`,
`T = 10`: `max(1, ⌊60 · 0.5 / 10⌋) = 3`. -/
theorem maxInitialTicks_60_10 : maxInitialTicks 60 10 = 3 := by
  have hx : ((60 : ℕ) : ℚ) * (1/2) / ((10 : ℕ) : ℚ) = 3 := by norm_num
  rw [maxInitialTicks, hx]
  norm_num
  rfl

/-- C4: on the first evaluation the task does not run, the stored next-fire
time is `now + k·T` for the drawn `k ∈ [1, max(1, ⌊0.5·B/T⌋)]`, and for
`B = 60`, `T = 10` the first-fire delay is 10, 20 or 30 seconds. -/
theorem firstFire_quantized (now : ℚ) (B T k : ℕ) (hk1 : 1 ≤ k)
    (hk2 : k ≤ maxInitialTicks B T) :
    (shouldRunTask none now T k).1 = false ∧
    (shouldRunTask none now T k).2 = some (now + ((k * T : ℕ) : ℚ)) ∧
    (B = 60 → T = 10 → k * T = 10 ∨ k * T = 20 ∨ k * T = 30) := by
  refine ⟨rfl, rfl, ?_⟩
  rintro rfl rfl
  rw [maxInitialTicks_60_10] at hk2
  omega

/-- C4 witness: `B = 60`, `T = 10`, draw `k = 2` — a legal draw
(`2 ≤ max(1, ⌊30/10⌋) = 3`) giving delay 20 s and no run. -/
theorem firstFire_quantized_witness :
    (shouldRunTask none 0 10 2).1 = false ∧
    (shouldRunTask none 0 10 2).2 = some (0 + ((2 * 10 : ℕ) : ℚ)) ∧
    ((60 : ℕ) = 60 → (10 : ℕ) = 10 → 2 * 10 = 10 ∨ 2 * 10 = 20 ∨ 2 * 10 = 30) :=
  firstFire_quantized 0 60 10 2 (by norm_num) (by rw [maxInitialTicks_60_10]; norm_num)

/-- C7 counterexample: metadata task due at `now = 100` whose body raises.
The error is logged, but the stored next-fire time stays `some 100` — the
old, already-elapsed value, not a future time — whereas the successful run
at the same instant would store `some 160`. `_schedule_next` is skipped
because the exception propagates past it to the loop's handler. -/
theorem taskException_counterexample :
    (checkTasksMetadata (some 100) 100 60 10 1 0 true).nextTime = some 100 ∧
    (checkTasksMetadata (some 100) 100 60 10 1 0 true).errorLogged = true ∧
    (checkTasksMetadata (some 100) 100 60 10 1 0 false).nextTime = some 160 ∧
    ¬ ((100 : ℚ) < 100) := by
  have hs : shouldRunTask (some 100) 100 10 1 = (true, some 100) := by
    rw [shouldRunTask]
    norm_num
  have hd : scheduleDelay 60 10 0 = 60 := by
    have hx : ((60 : ℕ) : ℚ) * (1 + 0) / ((10 : ℕ) : ℚ) = 6 := by norm_num
    have hr : roundHalfEven 6 = 6 := by
      have hfl : ⌊(6 : ℚ)⌋ = 6 := by norm_num
      rw [roundHalfEven, hfl]
      norm_num
    rw [scheduleDelay, hx, hr]
    norm_num
  refine ⟨?_, ?_, ?_, by norm_num⟩ <;>
    simp [checkTasksMetadata, hs, scheduleNext, hd]
  norm_num

/-- C7 amended: a task body exception is logged at error level by the
scheduler loop, but the next-fire time is not rescheduled: it keeps its old
value (so the task is retried on the very next tick rather than after a
jittered interval); only a body that returns normally is rescheduled. -/
theorem taskException_keepsNextFire (t now : ℚ) (B T k : ℕ) (ε : ℚ) (h : t ≤ now) :
    checkTasksMetadata (some t) now B T k ε true
      = { nextTime := some t, errorLogged := true } := by
  simp [checkTasksMetadata, shouldRunTask, h]

/-- C7 witness: a due task (`t = 100 ≤ now = 101`) whose body raises keeps
`next_fire_time = 100` and logs the error. -/
theorem taskException_keepsNextFire_witness :
    checkTasksMetadata (some 100) 101 60 10 1 0 true
      = { nextTime := some 100, errorLogged := true } :=
  taskException_keepsNextFire 100 101 60 10 1 0 (by norm_num)

/-! ### Theorems: freshness prober -/

/-- C1: with the local file present and both HEAD headers parseable, the
prober returns changed iff the sizes differ or the remote mtime is strictly
newer; with equal size and no newer mtime it returns unchanged and
`_refresh_media` (Sync) is not invoked. -/
theorem freshness_bothParsed (sL sR : ℤ) (mL mR : ℚ) :
    checkSynthesisChanged (some (sL, mL)) (HeadResult.ok (some (some sR)) (some (some mR)))
      = (if sR ≠ sL then ProbeOutcome.changed
         else if mL < mR then ProbeOutcome.changed else ProbeOutcome.unchanged) ∧
    (sR = sL → mR ≤ mL →
      checkSynthesisChanged (some (sL, mL))
          (HeadResult.ok (some (some sR)) (some (some mR))) = ProbeOutcome.unchanged ∧
      refreshInvoked (checkSynthesisChanged (some (sL, mL))
          (HeadResult.ok (some (some sR)) (some (some mR)))) = false) := by
  constructor
  · rfl
  · rintro rfl hle
    have hcc : checkSynthesisChanged (some (sR, mL))
        (HeadResult.ok (some (some sR)) (some (some mR))) = ProbeOutcome.unchanged := by
      show headCheck sR mL (some (some sR)) (some (some mR)) = ProbeOutcome.unchanged
      rw [headCheck]
      simp [probeDate, not_lt.mpr hle]
    exact ⟨hcc, by rw [hcc]; rfl⟩

/-- C1 witness: the spec's literal scenario — local size 1024 and mtime
1 700 000 000 equal the remote values — yields unchanged and no Sync. -/
theorem freshness_bothParsed_witness :
    checkSynthesisChanged (some (1024, 1700000000))
        (HeadResult.ok (some (some 1024)) (some (some 1700000000))) = ProbeOutcome.unchanged ∧
    refreshInvoked (checkSynthesisChanged (some (1024, 1700000000))
        (HeadResult.ok (some (some 1024)) (some (some 1700000000)))) = false :=
  (freshness_bothParsed 1024 1024 1700000000 1700000000).2 rfl le_rfl

/-- C6 counterexample: local file present, HEAD succeeds with neither a
Content-Length nor a Last-Modified header — the prober returns unchanged,
not changed: both comparisons are skipped and the code falls through to
`return False`. -/
theorem freshness_noHeaders_counterexample :
    checkSynthesisChanged (some (1024, 1700000000)) (HeadResult.ok none none)
      = ProbeOutcome.unchanged ∧
    ProbeOutcome.unchanged ≠ ProbeOutcome.changed :=
  ⟨rfl, by decide⟩

/-- C6 amended: when the HEAD succeeds but neither comparison input is
usable, the prober returns unchanged when Content-Length is absent (and
Last-Modified is absent or unparseable); when Content-Length is present but
unparseable, `int()` raises and the exception escapes the prober — in no
case does it return changed. -/
theorem freshness_unusableHeaders (sL : ℤ) (mL : ℚ) (lm : Option (Option ℚ))
    (h : lm = none ∨ lm = some none) :
    checkSynthesisChanged (some (sL, mL)) (HeadResult.ok none lm) = ProbeOutcome.unchanged ∧
    (∀ lm2 : Option (Option ℚ),
      checkSynthesisChanged (some (sL, mL)) (HeadResult.ok (some none) lm2)
        = ProbeOutcome.exn) := by
  constructor
  · rcases h with rfl | rfl <;> rfl
  · intro lm2
    rfl

/-- C6 witness: absent Content-Length with an unparseable Last-Modified
yields unchanged, and an unparseable Content-Length raises. -/
theorem freshness_unusableHeaders_witness :
    checkSynthesisChanged (some (1024, 1700000000)) (HeadResult.ok none (some none))
      = ProbeOutcome.unchanged ∧
    checkSynthesisChanged (some (1024, 1700000000)) (HeadResult.ok (some none) (some none))
      = ProbeOutcome.exn :=
  ⟨(freshness_unusableHeaders 1024 1700000000 (some none) (Or.inr rfl)).1,
   (freshness_unusableHeaders 1024 1700000000 (some none) (Or.inr rfl)).2 (some none)⟩

/-! ### Theorems: pre-download engine -/

/-- C5: whenever the resolver's total update size strictly exceeds the
ceiling, `_run_predownload` returns before issuing any download items and
before running the cache cleanup. -/
theorem predownload_size_ceiling (dbf : String → Option PkgInfo) (res : UpdatesResult)
    (sMax : ℕ) (idle : Bool) (h : sMax < res.total_size) :
    runPredownload (some dbf) (some res) sMax idle
      = { itemsIssued := [], cleanupRan := false } := by
  simp [runPredownload, h]

/-- C5 witness: a single 600 MiB update against the default 500 MiB ceiling
issues nothing and skips cleanup. -/
theorem predownload_size_ceiling_witness :
    maxPredownloadSize
      < (getAvailableUpdates [⟨"a", "1.0", "2.0", "x86_64", some (600 * 1024 * 1024)⟩]).total_size ∧
    runPredownload (some fun _ => none)
        (some (getAvailableUpdates [⟨"a", "1.0", "2.0", "x86_64", some (600 * 1024 * 1024)⟩]))
        maxPredownloadSize true
      = { itemsIssued := [], cleanupRan := false } := by
  have h : maxPredownloadSize
      < (getAvailableUpdates [⟨"a", "1.0", "2.0", "x86_64", some (600 * 1024 * 1024)⟩]).total_size := by
    norm_num [maxPredownloadSize, getAvailableUpdates]
  exact ⟨h, predownload_size_ceiling _ _ _ _ h⟩

/-! ### Theorems: network idle probe -/

/-- C8 counterexample: a second call only half a second after the baseline
(with a huge byte delta) returns idle but leaves the stored baseline at its
old value `(0, 0, 100)` — it is not updated to the values read during the
call, contrary to the claim. -/
theorem netIdle_counterexample :
    isNetworkIdle (some ⟨0, 0, 100⟩) (some (999999, 999999)) (201/2) 100
      = (true, some ⟨0, 0, 100⟩) ∧
    (some (⟨0, 0, 100⟩ : NetSample) ≠ some (⟨999999, 999999, 201/2⟩ : NetSample)) := by
  constructor
  · rw [isNetworkIdle]
    norm_num
  · intro h
    have h2 : (⟨0, 0, 100⟩ : NetSample) = ⟨999999, 999999, 201/2⟩ := Option.some_injective _ h
    have h3 : (0 : ℤ) = 999999 := congrArg NetSample.rx h2
    exact absurd h3 (by norm_num)

/-- C8 amended: a call less than one second after the previous sample
returns idle and leaves the stored baseline counters and timestamp
unchanged; the baseline is only rewritten on the first call and on calls
with at least one second elapsed. -/
theorem netIdle_shortElapsed (p : NetSample) (rx tx : ℤ) (now maxKbps : ℚ)
    (h : now - p.time < 1) :
    isNetworkIdle (some p) (some (rx, tx)) now maxKbps = (true, some p) := by
  rw [isNetworkIdle]
  simp [h]

/-- C8 witness: half a second elapsed, arbitrary heavy traffic — idle, with
the baseline `(0, 0, 100)` kept. -/
theorem netIdle_shortElapsed_witness :
    isNetworkIdle (some ⟨0, 0, 100⟩) (some (999999, 999999)) (201/2) 100
      = (true, some ⟨0, 0, 100⟩) :=
  netIdle_shortElapsed ⟨0, 0, 100⟩ 999999 999999 (201/2) 100 (by norm_num)

/-! ### Theorems: cache query surface -/

/-- Soundness of the inner media-directory loop: a hit comes from a media
directory entry of the list that passed `is_dir()`, and carries the queried
filename and the `host/media/filename` relative path. -/
theorem searchHost_spec (hn : String) (dirs : List MediaDir) (fn : String) (e : HaveEntry)
    (h : searchHost hn dirs fn = some e) :
    ∃ m ∈ dirs, m.isDir = true ∧ e.filename = fn ∧
      e.path = hn ++ "/" ++ m.name ++ "/" ++ fn := by
  induction dirs with
  | nil => simp [searchHost] at h
  | cons m rest ih =>
    rw [searchHost] at h
    split_ifs at h with hd
    · split at h
      · cases h
        exact ⟨m, List.mem_cons_self m rest, hd, rfl, rfl⟩
      · obtain ⟨m2, hm2, h1, h2, h3⟩ := ih h
        exact ⟨m2, List.mem_cons_of_mem _ hm2, h1, h2, h3⟩
      · obtain ⟨m2, hm2, h1, h2, h3⟩ := ih h
        exact ⟨m2, List.mem_cons_of_mem _ hm2, h1, h2, h3⟩
    · obtain ⟨m2, hm2, h1, h2, h3⟩ := ih h
      exact ⟨m2, List.mem_cons_of_mem _ hm2, h1, h2, h3⟩

/-- Soundness of the outer hostname-directory loop: a hit comes from a
hostname entry that passed `is_dir()`. -/
theorem searchMedias_spec (hosts : List HostDir) (fn : String) (e : HaveEntry)
    (h : searchMedias hosts fn = some e) :
    ∃ hd ∈ hosts, hd.isDir = true ∧ searchHost hd.name hd.media fn = some e := by
  induction hosts with
  | nil => simp [searchMedias] at h
  | cons hd rest ih =>
    rw [searchMedias] at h
    split_ifs at h with hdir
    · split at h
      · rename_i e2 heq
        cases h
        exact ⟨hd, List.mem_cons_self hd rest, hdir, heq⟩
      · obtain ⟨hd2, hm2, h1, h2⟩ := ih h
        exact ⟨hd2, List.mem_cons_of_mem _ hm2, h1, h2⟩
    · obtain ⟨hd2, hm2, h1, h2⟩ := ih h
      exact ⟨hd2, List.mem_cons_of_mem _ hm2, h1, h2⟩

/-- Every entry of the `available` list produced by the per-filename loop
comes from a successful search for one of the queried filenames. -/
theorem processPackages_mem (hosts : List HostDir) (pkgs : List String) (e : HaveEntry)
    (h : e ∈ (processPackages hosts pkgs).1) :
    ∃ fn ∈ pkgs, searchMedias hosts fn = some e := by
  induction pkgs with
  | nil => simp [processPackages] at h
  | cons p rest ih =>
    simp only [processPackages] at h
    by_cases hbad : (p == "" || !(strEndsWith p ".rpm")) = true
    · rw [if_pos hbad] at h
      obtain ⟨fn, hfn, hs⟩ := ih h
      exact ⟨fn, List.mem_cons_of_mem _ hfn, hs⟩
    · rw [if_neg hbad] at h
      rcases heq : searchMedias hosts p with _ | e2
      · rw [heq] at h
        obtain ⟨fn, hfn, hs⟩ := ih h
        exact ⟨fn, List.mem_cons_of_mem _ hfn, hs⟩
      · rw [heq] at h
        replace h : e ∈ e2 :: (processPackages hosts rest).1 := h
        rcases List.mem_cons.mp h with rfl | hmem
        · exact ⟨p, List.mem_cons_self p rest, heq⟩
        · obtain ⟨fn, hfn, hs⟩ := ih hmem
          exact ⟨fn, List.mem_cons_of_mem _ hfn, hs⟩

/-- Counting slashes in a `host/media/filename` join whose three parts are
slash-free. -/
theorem count_slash_join (a b c : String) (ha : '/' ∉ a.toList) (hb : '/' ∉ b.toList)
    (hc : '/' ∉ c.toList) : (a ++ "/" ++ b ++ "/" ++ c).toList.count '/' = 2 := by
  have hsplit : (a ++ "/" ++ b ++ "/" ++ c).toList
      = a.toList ++ (['/'] ++ (b.toList ++ (['/'] ++ c.toList))) := by
    simp [String.toList]
  rw [hsplit]
  have ha0 : List.count '/' a.data = 0 := List.count_eq_zero.mpr ha
  have hb0 : List.count '/' b.data = 0 := List.count_eq_zero.mpr hb
  have hc0 : List.count '/' c.data = 0 := List.count_eq_zero.mpr hc
  simp [List.count_append, ha0, hb0, hc0]

/-- C9: every entry of a `have()` result's `available` list carries a
queried filename and a path of the form `hostname/media/filename`, built
from a hostname directory and a media directory of the cache tree — hence,
the directory-entry names and the filename being slash-free, a path with
exactly two directory components before the filename. -/
theorem have_path_structure (mediasDir : Option (List HostDir)) (packages : List String)
    (e : HaveEntry) (he : e ∈ (check_have_packages mediasDir packages).available) :
    e.filename ∈ packages ∧
    ∃ hosts hd m, mediasDir = some hosts ∧ hd ∈ hosts ∧ m ∈ hd.media ∧
      e.path = hd.name ++ "/" ++ m.name ++ "/" ++ e.filename ∧
      (('/' ∉ hd.name.toList ∧ '/' ∉ m.name.toList ∧ '/' ∉ e.filename.toList) →
        e.path.toList.count '/' = 2) := by
  match mediasDir with
  | none => simp [check_have_packages] at he
  | some hosts =>
    have he2 : e ∈ (processPackages hosts packages).1 := he
    obtain ⟨fn, hfn, hs⟩ := processPackages_mem hosts packages e he2
    obtain ⟨hd, hhd, hdir, hsh⟩ := searchMedias_spec hosts fn e hs
    obtain ⟨m, hm, hmdir, hefn, hep⟩ := searchHost_spec hd.name hd.media fn e hsh
    subst hefn
    refine ⟨hfn, hosts, hd, m, rfl, hhd, hm, hep, ?_⟩
    rintro ⟨h1, h2, h3⟩
    rw [hep]
    exact count_slash_join _ _ _ h1 h2 h3

/-- Concrete cache tree for the witness: spec scenario 6. -/
def demoHost : HostDir :=
  { name := "mirror.example", isDir := true
  , media := [{ name := "main", isDir := true
              , files := [{ name := "foo-1.rpm", statSize := some 7 }] }] }

/-- The entry `have(["foo-1.rpm", "bar-2.rpm"])` returns for the demo tree. -/
def demoEntry : HaveEntry :=
  { filename := "foo-1.rpm", size := 7, path := "mirror.example/main/foo-1.rpm" }

/-- C9 witness: in the demo tree, the returned entry for `foo-1.rpm` has the
two-component relative path `mirror.example/main/foo-1.rpm`. -/
theorem have_path_structure_witness :
    demoEntry ∈ (check_have_packages (some [demoHost]) ["foo-1.rpm", "bar-2.rpm"]).available ∧
    (demoEntry.filename ∈ ["foo-1.rpm", "bar-2.rpm"] ∧
     ∃ hosts hd m, (some [demoHost] : Option (List HostDir)) = some hosts ∧
       hd ∈ hosts ∧ m ∈ hd.media ∧
       demoEntry.path = hd.name ++ "/" ++ m.name ++ "/" ++ demoEntry.filename ∧
       (('/' ∉ hd.name.toList ∧ '/' ∉ m.name.toList ∧ '/' ∉ demoEntry.filename.toList) →
         demoEntry.path.toList.count '/' = 2)) := by
  have hmem : demoEntry
      ∈ (check_have_packages (some [demoHost]) ["foo-1.rpm", "bar-2.rpm"]).available := by
    have hav : (check_have_packages (some [demoHost]) ["foo-1.rpm", "bar-2.rpm"]).available
        = [demoEntry] := rfl
    rw [hav]
    exact List.mem_singleton.mpr rfl
  exact ⟨hmem, have_path_structure _ _ _ hmem⟩

/-- The per-filename loop sends each input to exactly one of the two lists. -/
theorem processPackages_length (hosts : List HostDir) (pkgs : List String) :
    (processPackages hosts pkgs).1.length + (processPackages hosts pkgs).2.length
      = pkgs.length := by
  induction pkgs with
  | nil => rfl
  | cons p rest ih =>
    simp only [processPackages]
    by_cases hbad : (p == "" || !(strEndsWith p ".rpm")) = true
    · rw [if_pos hbad]
      simp only [List.length_cons]
      omega
    · rw [if_neg hbad]
      rcases heq : searchMedias hosts p with _ | e2 <;>
        simp only [List.length_cons] <;> omega

/-- C10 amended: `have()` results partition the inputs — the lengths of
`available` and `missing` sum to the input length and the counts match the
list lengths, whether or not the medias directory exists. When it does not
exist, the inputs are returned verbatim as missing (an empty string stays
`""`); when it exists, an empty-string input is reported once in missing as
`"<invalid>"`. -/
theorem check_have_partition (mediasDir : Option (List HostDir)) (packages : List String) :
    (check_have_packages mediasDir packages).available.length
        + (check_have_packages mediasDir packages).missing.length = packages.length ∧
    (check_have_packages mediasDir packages).available_count
        = (check_have_packages mediasDir packages).available.length ∧
    (check_have_packages mediasDir packages).missing_count
        = (check_have_packages mediasDir packages).missing.length ∧
    (mediasDir = none → (check_have_packages mediasDir packages).missing = packages) ∧
    (∀ hosts, mediasDir = some hosts → packages = [""] →
      (check_have_packages mediasDir packages).missing = ["<invalid>"]) := by
  match mediasDir with
  | none =>
    refine ⟨by simp [check_have_packages], rfl, rfl, fun _ => rfl, ?_⟩
    intro hosts h
    exact Option.noConfusion h
  | some hosts =>
    refine ⟨processPackages_length hosts packages, rfl, rfl, ?_, ?_⟩
    · intro h
      exact Option.noConfusion h
    · intro hosts2 h hp
      cases h
      subst hp
      rfl

/-- C10 witness: with an existing medias tree, `have([""])` reports the
empty filename once, as `"<invalid>"`. -/
theorem check_have_partition_witness :
    (check_have_packages (some [demoHost]) [""]).missing = ["<invalid>"] :=
  (check_have_partition (some [demoHost]) [""]).2.2.2.2 [demoHost] rfl rfl

/-- C10 counterexample: when the medias directory does not exist, the empty
string is returned verbatim in `missing`, not renamed to `"<invalid>"` —
the early return hands back the input list unchanged. -/
theorem check_have_invalid_counterexample :
    (check_have_packages none [""]).missing = [""] ∧ ("" : String) ≠ "<invalid>" :=
  ⟨rfl, by decide⟩

end Urpm
